import Mathlib

/-!
Verification of the training script src/train.py (fine-tuning of a pretrained
image classifier with early stopping).

The script is shallowly embedded:

* The torchvision transform pipelines and the data-loader construction of
  create_data_loaders (lines 158-199) become explicit lists of transform
  descriptors and loader configurations.
* The head construction and backbone freezing of net (lines 131-156) become
  pure functions over a Model record; the external torchvision registry is a
  parameter, and the external nn.Linear default (parameters are created with
  requires_grad set to true) is modelled explicitly.
* The training controller train (lines 52-129) becomes a fuel-indexed loop
  over a TrainState.  The effect of one training pass on the trainable
  parameters is an abstract function step, and the validation score computed
  after that pass is an abstract function scoreOf of the updated parameters;
  the parameter type P is arbitrary, so P may also carry optimizer or RNG
  state.  Crucially, the Python value best_model = model.state_dict() holds
  references to the live parameter tensors (PyTorch state_dict returns
  references, and optimizer steps mutate the tensors in place), so the saved
  dictionary always denotes the current parameters; it is modelled as a flag
  best_set, and model.load_state_dict of that dictionary writes the current
  parameters onto themselves, leaving them unchanged.  Passing None instead
  raises, which is modelled as the error TrainError.loadNone.
* The evaluation reporter test (lines 26-49) becomes a pure fold over the
  materialized (input, label) stream of its loader.
-/

/-- A torchvision transform descriptor, as composed in create_data_loaders
(src/train.py lines 160-171).  Normalization carries the per-channel mean and
standard deviation triples. -/
inductive Transform : Type
  | randomResizedCrop (h w : Nat)
  | randomHorizontalFlip
  | resize (h w : Nat)
  | toTensor
  | normalize (mean std : ℚ × ℚ × ℚ)
deriving DecidableEq

/-- Whether a transform draws from the random number generator of the library
(data augmentation) rather than being deterministic. -/
def Transform.isRandom : Transform → Bool
  | Transform.randomResizedCrop _ _ => true
  | Transform.randomHorizontalFlip => true
  | _ => false

/-- Embedding of train_transform (src/train.py lines 160-165): RandomResizedCrop
to 224 by 224, RandomHorizontalFlip, ToTensor, Normalize with mean and std
(0.5, 0.5, 0.5). -/
def train_transform : List Transform :=
  [Transform.randomResizedCrop 224 224,
   Transform.randomHorizontalFlip,
   Transform.toTensor,
   Transform.normalize (1/2, 1/2, 1/2) (1/2, 1/2, 1/2)]

/-- Embedding of test_transform (src/train.py lines 167-171): deterministic
Resize to 224 by 224, ToTensor, Normalize with mean and std (0.5, 0.5, 0.5). -/
def test_transform : List Transform :=
  [Transform.resize 224 224,
   Transform.toTensor,
   Transform.normalize (1/2, 1/2, 1/2) (1/2, 1/2, 1/2)]

/-- Configuration of one torch DataLoader as built in create_data_loaders
(src/train.py lines 181-197): the transform of its underlying dataset, the
batch size, and the shuffle flag. -/
structure DataLoaderCfg : Type where
  transform : List Transform
  batch_size : Nat
  shuffle : Bool
deriving DecidableEq

/-- The triple of loaders returned by create_data_loaders
(src/train.py line 199). -/
structure Loaders : Type where
  train_loader : DataLoaderCfg
  valid_loader : DataLoaderCfg
  test_loader : DataLoaderCfg
deriving DecidableEq

/-- Embedding of create_data_loaders (src/train.py lines 158-199).  The single
ImageFolder dataset is constructed with transform equal to train_transform
(lines 173-176); random_split (line 179) returns three Subset views over that
same dataset, so every loader serves items produced by train_transform.  The
variable test_transform defined at lines 167-171 is never used.  Only the
train loader shuffles.  The filesystem path and the random split assignment
are external and not part of the loader configuration modelled here. -/
def create_data_loaders (batch_size : Nat) : Loaders :=
  { train_loader := { transform := train_transform, batch_size := batch_size, shuffle := true },
    valid_loader := { transform := train_transform, batch_size := batch_size, shuffle := false },
    test_loader := { transform := train_transform, batch_size := batch_size, shuffle := false } }

/-- Modelled external behaviour of torchvision transforms at the granularity
the specification speaks of, with an image abstracted to a single rational
value: a random transform consumes the draw r of the library RNG current at
the moment it is applied (the crop location, respectively the flip decision),
while a deterministic transform ignores r.  Normalize subtracts the mean and
divides by the standard deviation (first channel). -/
def applyTransform (r : ℚ) : Transform → ℚ → ℚ
  | Transform.randomResizedCrop _ _, x => x + r
  | Transform.randomHorizontalFlip, x => if r < 1/2 then x else -x
  | Transform.resize _ _, x => x
  | Transform.toTensor, x => x
  | Transform.normalize mean std, x => (x - mean.1) / std.1

/-- Application of a whole transform pipeline (transforms.Compose) to one
image, with r the RNG draw current at this pass. -/
def applyPipeline (r : ℚ) (ts : List Transform) (x : ℚ) : ℚ :=
  ts.foldl (fun a t => applyTransform r t a) x

/-- Modelled external behaviour of one pass over a DataLoader: the loader
materializes its dataset, applying the dataset transform to each raw image
with the RNG draw r current at this pass.  A non-shuffling loader (the
validation and test loaders, src/train.py lines 187-197) keeps the raw
order. -/
def loaderPass (ld : DataLoaderCfg) (r : ℚ) (raw : List (ℚ × Nat)) : List (ℚ × Nat) :=
  raw.map (fun it => (applyPipeline r ld.transform it.1, it.2))

/-- Embedding of test (src/train.py lines 26-49) over the materialized stream
of (input, label) items of its loader.  forward abstracts model(data) followed
by output.max(1) (the predicted class index), and lossOf abstracts
criterion(output, target).  The function accumulates test_loss as the sum of
the per-item losses weighted by item count (batch granularity one item, so
data.size(0) is 1), counts the predictions equal to the label, and divides the
loss by the dataset length l.  It mutates nothing. -/
def test (forward : ℚ → Nat) (lossOf : ℚ → Nat → ℚ) (items : List (ℚ × Nat)) : ℚ × Nat :=
  let l := items.length
  let test_loss := items.foldl (fun acc it => acc + lossOf it.1 it.2) 0
  let correct := (items.filter (fun it => forward it.1 == it.2)).length
  (test_loss / (l : ℚ), correct)

/-- One run of the evaluation reporter: a pass over the loader followed by
test, with r the RNG draw current at this pass. -/
def testOnLoader (forward : ℚ → Nat) (lossOf : ℚ → Nat → ℚ) (ld : DataLoaderCfg)
    (r : ℚ) (raw : List (ℚ × Nat)) : ℚ × Nat :=
  test forward lossOf (loaderPass ld r raw)

/-- A concrete model head used to evaluate the evaluation reporter: predicts
class 1 when the transformed input is at most -2 and class 0 otherwise. -/
def fwdC : ℚ → Nat := fun x => if x ≤ -2 then 1 else 0

/-- A concrete loss function used to evaluate the evaluation reporter. -/
def lossC : ℚ → Nat → ℚ := fun x _ => x * x

/-- A concrete one-image test partition: raw image value 0 with label 0. -/
def rawC : List (ℚ × Nat) := [(0, 0)]

/-- One module of the classification head built by net: a linear layer with
its input and output widths, or a ReLU activation. -/
inductive Layer : Type
  | linear (inF outF : Nat)
  | relu
deriving DecidableEq

/-- Embedding of full = [num_features,]+layers+[num_classes,]
(src/train.py line 142). -/
def full (num_features num_classes : Nat) (layers : List Nat) : List Nat :=
  [num_features] ++ layers ++ [num_classes]

/-- Embedding of the head construction loop of net (src/train.py lines
142-150): for i in range(len(full)-2) append Linear(full[i], full[i+1]) and
ReLU(), then append the final Linear(full[-2], full[-1]).  Python negative
indices full[-2] and full[-1] are full[len(full)-2] and full[len(full)-1]. -/
def headSeq (num_features num_classes : Nat) (layers : List Nat) : List Layer :=
  let fl := full num_features num_classes layers
  (List.range (fl.length - 2)).flatMap
    (fun i => [Layer.linear (fl.getD i 0) (fl.getD (i + 1) 0), Layer.relu])
  ++ [Layer.linear (fl.getD (fl.length - 2) 0) (fl.getD (fl.length - 1) 0)]

/-- The head shape as the specification words it: given trunk width F, hidden
widths layers and target num_classes, a linear layer for every consecutive
pair of widths in F :: layers ++ [num_classes], with a ReLU after every linear
layer except the last; an empty layers list gives the single linear layer from
F to num_classes. -/
def specHead : Nat → List Nat → Nat → List Layer
  | f, [], c => [Layer.linear f c]
  | f, h :: hs, c => Layer.linear f h :: Layer.relu :: specHead h hs c

/-- One parameter tensor of the model, carrying its requires_grad flag. -/
structure TParam : Type where
  requires_grad : Bool
deriving DecidableEq

/-- The composite model built by net: the pretrained backbone trunk (its
architecture name, its parameter tensors and the input width of its original
fc layer) together with the fc head (its layers and their parameter
tensors). -/
structure Model : Type where
  arch : String
  backboneParams : List TParam
  fc_in_features : Nat
  fcLayers : List Layer
  fcParams : List TParam
deriving DecidableEq

/-- Modelled external default of torch.nn: nn.Linear creates a weight and a
bias parameter, both with requires_grad true; nn.ReLU has no parameters. -/
def layerParams : Layer → List TParam
  | Layer.linear _ _ => [{ requires_grad := true }, { requires_grad := true }]
  | Layer.relu => []

/-- Parameters of an nn.Sequential head: the parameters of its layers in
order. -/
def seqParams (seq : List Layer) : List TParam :=
  seq.flatMap layerParams

/-- The error raised by net when the backbone name is not recognized:
eval("models."+model_name) (src/train.py line 135) fails on a name that is
not an attribute of torchvision.models, which the specification taxonomy
names UnknownModelError. -/
inductive NetError : Type
  | unknownModelError
deriving DecidableEq

/-- Embedding of net (src/train.py lines 131-156).  The torchvision.models
namespace is the registry parameter and the pretrained constructors are the
function pretrained; line 135 looks the name up and instantiates the
pretrained backbone, failing on an unknown name.  Lines 137-138 set
requires_grad to false on every parameter of the freshly instantiated model
(its backbone and its original fc layer).  Line 140 reads
num_features = model.fc.in_features, lines 142-152 build the new head and
assign model.fc = nn.Sequential(*seq), whose linear layers carry fresh
parameters with requires_grad true.  Nothing else is touched. -/
def net (registry : List String) (pretrained : String → Model)
    (model_name : String) (num_classes : Nat) (layers : List Nat) : Except NetError Model :=
  if model_name ∈ registry then
    let model := pretrained model_name
    let frozen : Model :=
      { model with
        backboneParams := model.backboneParams.map (fun _ => { requires_grad := false }),
        fcParams := model.fcParams.map (fun _ => { requires_grad := false }) }
    let num_features := frozen.fc_in_features
    let seq := headSeq num_features num_classes layers
    Except.ok { frozen with fcLayers := seq, fcParams := seqParams seq }
  else
    Except.error NetError.unknownModelError

/-- A concrete pretrained backbone used to instantiate theorems about net. -/
def resnet50Stub : Model :=
  { arch := "resnet50",
    backboneParams := [{ requires_grad := true }, { requires_grad := true }],
    fc_in_features := 2048,
    fcLayers := [Layer.linear 2048 1000],
    fcParams := [{ requires_grad := true }, { requires_grad := true }] }

/-- The failure of the training controller when it restores from an unset
snapshot: model.load_state_dict(None) (src/train.py line 125 or 129 with
best_model still None) raises. -/
inductive TrainError : Type
  | loadNone
deriving DecidableEq

/-- The state mutated by train (src/train.py lines 52-129): the trainable
parameters of the model, best_score, whether best_model has been assigned
(the saved state dictionary holds references to the live parameter tensors,
so it carries no separate value), the non-improvement counter count, and the
number of completed epochs. -/
structure TrainState (P : Type) : Type where
  param : P
  best_score : ℚ
  best_set : Bool
  count : Nat
  epoch : Nat
deriving DecidableEq

/-- The state at the start of train (src/train.py lines 57-60):
best_score = 0, best_model = None, count = 0, no epoch run yet. -/
def trainInit {P : Type} (p0 : P) : TrainState P :=
  { param := p0, best_score := 0, best_set := false, count := 0, epoch := 0 }

/-- Embedding of model.load_state_dict(best_model) (src/train.py lines 125 and
129).  When best_model is None the call raises (TrainError.loadNone).  When it
was assigned, it holds references to the very tensors that are the current
parameters of the model (PyTorch state_dict returns references and the
optimizer mutates the tensors in place), so loading copies the current
parameters onto themselves and the state is unchanged. -/
def load_state_dict {P : Type} (s : TrainState P) : Except TrainError (TrainState P) :=
  if s.best_set then Except.ok s else Except.error TrainError.loadNone

/-- One iteration of the epoch loop body of train without the stopping check
(src/train.py lines 62-122): the training pass updates the parameters to
step param (lines 71-88), the validation pass computes
score = scoreOf (step param) on the updated model (lines 100-113), and the
best-tracking branch (lines 117-122) either records a new best on strict
improvement of best_score and resets count to 0, or increments count. -/
def epochUpd {P : Type} (step : P → P) (scoreOf : P → ℚ) (s : TrainState P) : TrainState P :=
  if s.best_score < scoreOf (step s.param) then
    { param := step s.param, best_score := scoreOf (step s.param),
      best_set := true, count := 0, epoch := s.epoch + 1 }
  else
    { param := step s.param, best_score := s.best_score,
      best_set := s.best_set, count := s.count + 1, epoch := s.epoch + 1 }

/-- Embedding of the epoch loop of train with early stopping (src/train.py
lines 62-129), indexed by the remaining iterations of range(epochs).  When the
loop exhausts its range, line 129 loads the best state dictionary.  Inside an
iteration, after a non-improving epoch with count reaching tol, line 125 loads
the best state dictionary, the loop breaks, and line 129 loads it again. -/
def trainLoop {P : Type} (step : P → P) (scoreOf : P → ℚ) (tol : Nat) :
    Nat → TrainState P → Except TrainError (TrainState P)
  | 0, s => load_state_dict s
  | n + 1, s =>
    if s.best_score < scoreOf (step s.param) then
      trainLoop step scoreOf tol n (epochUpd step scoreOf s)
    else if s.count + 1 = tol then
      Except.bind (load_state_dict (epochUpd step scoreOf s)) load_state_dict
    else
      trainLoop step scoreOf tol n (epochUpd step scoreOf s)

/-- Embedding of train (src/train.py lines 52-129): run the epoch loop for at
most epochs iterations from the initial state. -/
def train {P : Type} (step : P → P) (scoreOf : P → ℚ) (epochs tol : Nat) (p0 : P) :
    Except TrainError (TrainState P) :=
  trainLoop step scoreOf tol epochs (trainInit p0)

/-- The state of the controller after j epochs when no stop occurred in the
first j epochs. -/
def trainIter {P : Type} (step : P → P) (scoreOf : P → ℚ) (p0 : P) (j : Nat) : TrainState P :=
  (epochUpd step scoreOf)^[j] (trainInit p0)

/-- The controller state as the specification intends it, with best_model an
owned copy of the trainable parameters of the best epoch. -/
structure SpecState (P : Type) : Type where
  param : P
  best_score : ℚ
  best_model : Option P
  count : Nat
  epoch : Nat
deriving DecidableEq

/-- Modelled from the spec: restoring the best snapshot under copy-on-improve
semantics writes the stored copy back into the model; an unset snapshot still
raises. -/
def specLoadBest {P : Type} (s : SpecState P) : Except TrainError (SpecState P) :=
  match s.best_model with
  | some b => Except.ok { s with param := b }
  | none => Except.error TrainError.loadNone

/-- Modelled from the spec: the epoch body with copy-on-improve snapshotting,
storing a copy of the updated parameters in best_model on strict
improvement. -/
def specEpochUpd {P : Type} (step : P → P) (scoreOf : P → ℚ) (s : SpecState P) : SpecState P :=
  if s.best_score < scoreOf (step s.param) then
    { param := step s.param, best_score := scoreOf (step s.param),
      best_model := some (step s.param), count := 0, epoch := s.epoch + 1 }
  else
    { param := step s.param, best_score := s.best_score,
      best_model := s.best_model, count := s.count + 1, epoch := s.epoch + 1 }

/-- Modelled from the spec: the epoch loop of the Training Controller as the
specification describes it (identical control flow to trainLoop, but with the
best snapshot kept by value). -/
def specTrainLoop {P : Type} (step : P → P) (scoreOf : P → ℚ) (tol : Nat) :
    Nat → SpecState P → Except TrainError (SpecState P)
  | 0, s => specLoadBest s
  | n + 1, s =>
    if s.best_score < scoreOf (step s.param) then
      specTrainLoop step scoreOf tol n (specEpochUpd step scoreOf s)
    else if s.count + 1 = tol then
      Except.bind (specLoadBest (specEpochUpd step scoreOf s)) specLoadBest
    else
      specTrainLoop step scoreOf tol n (specEpochUpd step scoreOf s)

/-- Modelled from the spec: the Training Controller with copy-on-improve
snapshotting, for contrast with the faithful embedding train. -/
def trainSpec {P : Type} (step : P → P) (scoreOf : P → ℚ) (epochs tol : Nat) (p0 : P) :
    Except TrainError (SpecState P) :=
  specTrainLoop step scoreOf tol epochs
    { param := p0, best_score := 0, best_model := none, count := 0, epoch := 0 }

/-- A concrete validation-score assignment: with step = Nat.succ from 0, the
parameters after epoch i are i, so epoch 1 scores 70 and epoch 2 scores 60. -/
def scoreA : Nat → ℚ := fun p => if p = 1 then 70 else if p = 2 then 60 else 0

/-- A concrete validation-score assignment: epochs 1 and 2 score 10, epoch 3
scores 20 (the highest of the run), later epochs score 15. -/
def scoreB : Nat → ℚ := fun p => if p ≤ 2 then 10 else if p = 3 then 20 else 15

/-- A concrete validation-score assignment matching the specification scenario
with scores 50, 40, 30. -/
def scoreC : Nat → ℚ := fun p =>
  if p = 1 then 50 else if p = 2 then 40 else if p = 3 then 30 else 0

/-- Modelled external behaviour of Python list repetition k*l: the
concatenation of k copies of l. -/
def pyRepeat {α : Type} (k : Nat) (l : List α) : List α :=
  (List.replicate k l).flatten

/-- Embedding of args.layers = 2**args.num_layers*[2**args.num_neurons,]
(src/train.py line 304) for non-negative exponents. -/
def cliLayers (num_layers num_neurons : Nat) : List Nat :=
  pyRepeat (2 ^ num_layers) [2 ^ num_neurons]

deriving instance DecidableEq for Except

lemma pyRepeat_singleton {α : Type} (k : Nat) (a : α) :
    pyRepeat k [a] = List.replicate k a := by
  induction k with
  | zero => rfl
  | succ n ih =>
    simp only [pyRepeat, List.replicate_succ, List.flatten_cons] at ih ⊢
    simp [ih]

lemma full_cons (F C h : Nat) (hs : List Nat) : full F C (h :: hs) = F :: full h C hs := rfl

lemma full_length (F C : Nat) (layers : List Nat) :
    (full F C layers).length = layers.length + 2 := by
  simp [full]

lemma headSeq_nil (F C : Nat) : headSeq F C [] = [Layer.linear F C] := rfl

lemma headSeq_cons (F C h : Nat) (hs : List Nat) :
    headSeq F C (h :: hs) = Layer.linear F h :: Layer.relu :: headSeq h C hs := by
  have e1 : (full F C (h :: hs)).length - 2 = hs.length + 1 := by
    simp [full_length]
  have e2 : (full h C hs).length - 2 = hs.length := by
    simp [full_length]
  simp only [headSeq, e1, e2, List.range_succ_eq_map, List.flatMap_cons, List.flatMap_map]
  simp only [full_cons, List.getD_cons_succ, List.getD_cons_zero, Function.comp]
  have e3 : (full F C (h :: hs)).length - 1 = hs.length + 2 := by
    simp [full_length]
  have e4 : (full h C hs).length - 1 = hs.length + 1 := by
    simp [full_length]
  simp only [e3, e4, full_cons, List.getD_cons_succ]
  have e5 : full h C hs = h :: (hs ++ [C]) := rfl
  simp [e5]

/-- C9: with epochs = 0 the epoch loop body never runs, so best_model is still
None when line 129 restores it, and train fails instead of returning normally;
the component performs no check of epochs, so epochs at least 1 is a caller
obligation. -/
theorem train_epochs_zero_fails {P : Type} (step : P → P) (scoreOf : P → ℚ)
    (tol : Nat) (p0 : P) :
    train step scoreOf 0 tol p0 = Except.error TrainError.loadNone := rfl

/-- C1: at epochs = 2, tol = 5, with the training pass moving the parameters
0, 1, 2 and validation scores 70 then 60, the claimed invariant fails on the
code: best_model = model.state_dict() aliases the live tensors, so the run
returns the parameters of the last epoch (value 2), while the snapshot of the
single best epoch (epoch 1) has value 1 — which is what the copy-on-improve
controller of the specification (trainSpec) returns. -/
theorem train_restore_aliases_last_epoch :
    (train Nat.succ scoreA 2 5 0).map TrainState.param = Except.ok 2 ∧
    (trainSpec Nat.succ scoreA 2 5 0).map SpecState.param = Except.ok 1 ∧
    (2 : Nat) ≠ 1 := by
  refine ⟨rfl, rfl, by decide⟩

/-- C3: the claim fails on the code.  The validation and test loaders built by
create_data_loaders carry train_transform — the single ImageFolder is built
with train_transform and the random_split subsets inherit it — so both apply
the random augmentation (RandomResizedCrop, RandomHorizontalFlip); the
deterministic test_transform defined in the source is never used. -/
theorem create_data_loaders_augment_valid_and_test :
    (create_data_loaders 64).valid_loader.transform = train_transform ∧
    (create_data_loaders 64).test_loader.transform = train_transform ∧
    ((create_data_loaders 64).valid_loader.transform.any Transform.isRandom) = true ∧
    ((create_data_loaders 64).test_loader.transform.any Transform.isRandom) = true ∧
    test_transform.all (fun t => !t.isRandom) = true ∧
    (create_data_loaders 64).valid_loader.transform ≠ test_transform := by
  refine ⟨rfl, rfl, rfl, rfl, rfl, by decide⟩

/-- C5: the claim fails on the code.  Because the test loader carries
train_transform, each pass re-applies the random augmentation with the RNG
draw current at that pass, so two runs of the evaluation reporter on the same
model and the same one-image partition report different loss and accuracy
(draws 0 and 1); with the deterministic test_transform the report would be
identical for every pair of draws. -/
theorem test_not_reproducible_under_train_transform :
    (create_data_loaders 64).test_loader.transform = train_transform ∧
    testOnLoader fwdC lossC ((create_data_loaders 64).test_loader) 0 rawC ≠
      testOnLoader fwdC lossC ((create_data_loaders 64).test_loader) 1 rawC ∧
    (∀ r r2 : ℚ,
      testOnLoader fwdC lossC { transform := test_transform, batch_size := 64, shuffle := false } r rawC =
      testOnLoader fwdC lossC { transform := test_transform, batch_size := 64, shuffle := false } r2 rawC) := by
  refine ⟨rfl, ?_, fun r r2 => rfl⟩
  norm_num [testOnLoader, test, loaderPass, applyPipeline, applyTransform,
    create_data_loaders, train_transform, fwdC, lossC, rawC, Prod.ext_iff]

/-- C4: the head built by net has the ordered width profile
[num_features] ++ layers ++ [num_classes] with a ReLU activation after every
linear layer except the last (specHead states exactly this shape), and an
empty layers list yields the single linear layer from num_features to
num_classes. -/
theorem headSeq_matches_spec_profile (F C : Nat) (layers : List Nat) :
    headSeq F C layers = specHead F layers C ∧ headSeq F C [] = [Layer.linear F C] := by
  refine ⟨?_, rfl⟩
  induction layers generalizing F with
  | nil => rfl
  | cons h hs ih => rw [headSeq_cons, specHead, ih]

/-- C8: the hidden-width list handed to net by the command line entry point
has exactly 2 to the num-layers entries, each 2 to the num-neurons; in
particular the defaults 0 and 0 produce the single hidden layer [1], not an
empty list. -/
theorem cliLayers_pow_profile (n p : Nat) :
    cliLayers n p = List.replicate (2 ^ n) (2 ^ p) ∧
    (cliLayers n p).length = 2 ^ n ∧
    cliLayers 0 0 = [1] := by
  refine ⟨pyRepeat_singleton _ _, ?_, rfl⟩
  simp [cliLayers, pyRepeat_singleton]

/-- C6: whenever net returns a model, every backbone parameter has gradient
computation disabled — lines 137-138 set requires_grad to false on all
parameters of the freshly instantiated pretrained model before the head is
replaced — and every parameter of the newly constructed head is trainable
(nn.Linear creates its parameters with requires_grad true); net is a pure
function of its inputs, so it mutates no global state. -/
theorem net_freezes_backbone_only_head_trainable
    (registry : List String) (pretrained : String → Model) (model_name : String)
    (num_classes : Nat) (layers : List Nat) (m : Model)
    (h : net registry pretrained model_name num_classes layers = Except.ok m) :
    (∀ p ∈ m.backboneParams, p.requires_grad = false) ∧
    (∀ p ∈ m.fcParams, p.requires_grad = true) := by
  by_cases hmem : model_name ∈ registry
  · simp only [net, if_pos hmem, Except.ok.injEq] at h
    subst h
    constructor
    · intro p hp
      simp only [List.mem_map] at hp
      obtain ⟨q, _, hq⟩ := hp
      exact hq ▸ rfl
    · intro p hp
      simp only [seqParams, List.mem_flatMap] at hp
      obtain ⟨lay, _, hpl⟩ := hp
      cases lay with
      | linear a b =>
        simp only [layerParams, List.mem_cons, List.not_mem_nil, or_false] at hpl
        rcases hpl with h1 | h1 <;> exact h1 ▸ rfl
      | relu => simp [layerParams] at hpl
  · simp [net, if_neg hmem] at h

/-- Witness for C6 at a concrete input: resnet50 from a one-element registry
with five classes and an empty hidden-width list. -/
theorem net_freezes_backbone_only_head_trainable_witness :
    ∃ m, net ["resnet50"] (fun _ => resnet50Stub) "resnet50" 5 [] = Except.ok m ∧
      ((∀ p ∈ m.backboneParams, p.requires_grad = false) ∧
       (∀ p ∈ m.fcParams, p.requires_grad = true)) := by
  refine ⟨_, rfl, ?_⟩
  exact net_freezes_backbone_only_head_trainable ["resnet50"] (fun _ => resnet50Stub)
    "resnet50" 5 [] _ rfl

/-- C7: net fails with the unknown-model error on every backbone name outside
the registry (the torchvision.models namespace looked up by
eval("models."+model_name) at line 135), and on every name in the registry it
instantiates that pretrained backbone and returns the composed model built
from it. -/
theorem net_registry_lookup
    (registry : List String) (pretrained : String → Model) (model_name : String)
    (num_classes : Nat) (layers : List Nat) :
    (model_name ∉ registry →
      net registry pretrained model_name num_classes layers =
        Except.error NetError.unknownModelError) ∧
    (model_name ∈ registry →
      ∃ m, net registry pretrained model_name num_classes layers = Except.ok m ∧
        m.arch = (pretrained model_name).arch ∧
        m.fc_in_features = (pretrained model_name).fc_in_features) := by
  constructor
  · intro hno
    simp [net, if_neg hno]
  · intro hyes
    simp only [net, if_pos hyes]
    exact ⟨_, rfl, rfl, rfl⟩

/-- Witness for C7 at concrete inputs: alexnet is rejected by a registry
holding resnet50 and vgg16, while resnet50 is instantiated. -/
theorem net_registry_lookup_witness :
    net ["resnet50", "vgg16"] (fun _ => resnet50Stub) "alexnet" 5 [] =
      Except.error NetError.unknownModelError ∧
    (∃ m, net ["resnet50", "vgg16"] (fun _ => resnet50Stub) "resnet50" 5 [] = Except.ok m ∧
      m.arch = resnet50Stub.arch ∧ m.fc_in_features = resnet50Stub.fc_in_features) :=
  ⟨(net_registry_lookup ["resnet50", "vgg16"] (fun _ => resnet50Stub) "alexnet" 5 []).1
      (by decide),
   (net_registry_lookup ["resnet50", "vgg16"] (fun _ => resnet50Stub) "resnet50" 5 []).2
      (by decide)⟩

lemma epochUpd_epoch {P : Type} (step : P → P) (scoreOf : P → ℚ) (s : TrainState P) :
    (epochUpd step scoreOf s).epoch = s.epoch + 1 := by
  unfold epochUpd
  split <;> rfl

lemma epochUpd_param {P : Type} (step : P → P) (scoreOf : P → ℚ) (s : TrainState P) :
    (epochUpd step scoreOf s).param = step s.param := by
  unfold epochUpd
  split <;> rfl

lemma epochUpd_of_lt {P : Type} (step : P → P) (scoreOf : P → ℚ) (s : TrainState P)
    (h : s.best_score < scoreOf (step s.param)) :
    epochUpd step scoreOf s =
      { param := step s.param, best_score := scoreOf (step s.param),
        best_set := true, count := 0, epoch := s.epoch + 1 } := by
  unfold epochUpd
  rw [if_pos h]

lemma epochUpd_of_not_lt {P : Type} (step : P → P) (scoreOf : P → ℚ) (s : TrainState P)
    (h : ¬ s.best_score < scoreOf (step s.param)) :
    epochUpd step scoreOf s =
      { param := step s.param, best_score := s.best_score,
        best_set := s.best_set, count := s.count + 1, epoch := s.epoch + 1 } := by
  unfold epochUpd
  rw [if_neg h]

lemma trainLoop_succ_of_lt {P : Type} (step : P → P) (scoreOf : P → ℚ) (tol n : Nat)
    (s : TrainState P) (h : s.best_score < scoreOf (step s.param)) :
    trainLoop step scoreOf tol (n + 1) s =
      trainLoop step scoreOf tol n (epochUpd step scoreOf s) := by
  simp only [trainLoop]
  rw [if_pos h]

lemma trainLoop_succ_of_not_lt_ne {P : Type} (step : P → P) (scoreOf : P → ℚ) (tol n : Nat)
    (s : TrainState P) (h : ¬ s.best_score < scoreOf (step s.param))
    (hc : s.count + 1 ≠ tol) :
    trainLoop step scoreOf tol (n + 1) s =
      trainLoop step scoreOf tol n (epochUpd step scoreOf s) := by
  simp only [trainLoop]
  rw [if_neg h, if_neg hc]

lemma trainLoop_succ_stop {P : Type} (step : P → P) (scoreOf : P → ℚ) (tol n : Nat)
    (s : TrainState P) (h : ¬ s.best_score < scoreOf (step s.param))
    (hc : s.count + 1 = tol) :
    trainLoop step scoreOf tol (n + 1) s =
      Except.bind (load_state_dict (epochUpd step scoreOf s)) load_state_dict := by
  simp only [trainLoop]
  rw [if_neg h, if_pos hc]

lemma trainLoop_succ_of_count_ne {P : Type} (step : P → P) (scoreOf : P → ℚ) (tol n : Nat)
    (s : TrainState P) (hc : (epochUpd step scoreOf s).count ≠ tol) :
    trainLoop step scoreOf tol (n + 1) s =
      trainLoop step scoreOf tol n (epochUpd step scoreOf s) := by
  by_cases h : s.best_score < scoreOf (step s.param)
  · exact trainLoop_succ_of_lt step scoreOf tol n s h
  · refine trainLoop_succ_of_not_lt_ne step scoreOf tol n s h ?_
    rw [epochUpd_of_not_lt step scoreOf s h] at hc
    exact hc

lemma trainLoop_unroll {P : Type} (step : P → P) (scoreOf : P → ℚ) (tol : Nat) :
    ∀ (j n : Nat) (s : TrainState P), j ≤ n →
    (∀ i, i ≤ j → ((epochUpd step scoreOf)^[i] s).count ≠ tol) →
    trainLoop step scoreOf tol n s =
      trainLoop step scoreOf tol (n - j) ((epochUpd step scoreOf)^[j] s) := by
  intro j
  induction j with
  | zero =>
    intro n s _ _
    simp
  | succ j ih =>
    intro n s hjn hcount
    obtain ⟨m, rfl⟩ : ∃ m, n = m + 1 := ⟨n - 1, by omega⟩
    have h1 : (epochUpd step scoreOf s).count ≠ tol := by
      have := hcount 1 (by omega)
      rwa [Function.iterate_one] at this
    rw [trainLoop_succ_of_count_ne step scoreOf tol m s h1]
    have hrec := ih m (epochUpd step scoreOf s) (by omega) (fun i hi => by
      rw [← Function.iterate_succ_apply]
      exact hcount (i + 1) (by omega))
    rw [hrec, ← Function.iterate_succ_apply]
    have e : m - j = m + 1 - (j + 1) := by omega
    rw [e]

lemma trainIter_zero {P : Type} (step : P → P) (scoreOf : P → ℚ) (p0 : P) :
    trainIter step scoreOf p0 0 = trainInit p0 := rfl

lemma trainIter_succ {P : Type} (step : P → P) (scoreOf : P → ℚ) (p0 : P) (j : Nat) :
    trainIter step scoreOf p0 (j + 1) = epochUpd step scoreOf (trainIter step scoreOf p0 j) :=
  Function.iterate_succ_apply' (epochUpd step scoreOf) j (trainInit p0)

lemma trainIter_epoch {P : Type} (step : P → P) (scoreOf : P → ℚ) (p0 : P) (j : Nat) :
    (trainIter step scoreOf p0 j).epoch = j := by
  induction j with
  | zero => rfl
  | succ j ih => rw [trainIter_succ, epochUpd_epoch, ih]

lemma trainIter_param {P : Type} (step : P → P) (scoreOf : P → ℚ) (p0 : P) (j : Nat) :
    (trainIter step scoreOf p0 j).param = step^[j] p0 := by
  induction j with
  | zero => rfl
  | succ j ih => rw [trainIter_succ, epochUpd_param, ih, Function.iterate_succ_apply']

lemma trainLoop_unroll_init {P : Type} (step : P → P) (scoreOf : P → ℚ) (tol : Nat)
    (p0 : P) (j n : Nat) (hjn : j ≤ n)
    (hc : ∀ i, i ≤ j → (trainIter step scoreOf p0 i).count ≠ tol) :
    trainLoop step scoreOf tol n (trainInit p0) =
      trainLoop step scoreOf tol (n - j) (trainIter step scoreOf p0 j) :=
  trainLoop_unroll step scoreOf tol j n (trainInit p0) hjn hc

lemma trainIter_plateau {P : Type} (step : P → P) (scoreOf : P → ℚ) (p0 : P)
    (k bound : Nat) (hk1 : 1 ≤ k)
    (himp : (trainIter step scoreOf p0 (k - 1)).best_score < scoreOf (step^[k] p0))
    (hafter : ∀ j, j ≤ bound → k < j →
      scoreOf (step^[j] p0) ≤ scoreOf (step^[k] p0)) :
    ∀ d, k + d ≤ bound →
      trainIter step scoreOf p0 (k + d) =
        { param := step^[k + d] p0, best_score := scoreOf (step^[k] p0),
          best_set := true, count := d, epoch := k + d } := by
  intro d
  induction d with
  | zero =>
    intro _
    obtain ⟨k0, rfl⟩ : ∃ k0, k = k0 + 1 := ⟨k - 1, by omega⟩
    have hk0 : k0 + 1 - 1 = k0 := by omega
    rw [hk0] at himp
    rw [Nat.add_zero, trainIter_succ]
    have hlt : (trainIter step scoreOf p0 k0).best_score <
        scoreOf (step (trainIter step scoreOf p0 k0).param) := by
      rw [trainIter_param, ← Function.iterate_succ_apply' step k0 p0]
      exact himp
    rw [epochUpd_of_lt _ _ _ hlt]
    rw [trainIter_param, trainIter_epoch, Function.iterate_succ_apply' step k0 p0]
  | succ d ih =>
    intro hbound
    have ihd := ih (by omega)
    have e1 : k + (d + 1) = (k + d) + 1 := by omega
    have e2 : step (step^[k + d] p0) = step^[k + d + 1] p0 :=
      (Function.iterate_succ_apply' step (k + d) p0).symm
    have hsc : scoreOf (step^[k + d + 1] p0) ≤ scoreOf (step^[k] p0) :=
      hafter (k + d + 1) (by omega) (by omega)
    have hni : ¬ (trainIter step scoreOf p0 (k + d)).best_score <
        scoreOf (step (trainIter step scoreOf p0 (k + d)).param) := by
      rw [ihd]
      show ¬ scoreOf (step^[k] p0) < scoreOf (step (step^[k + d] p0))
      rw [e2]
      exact not_lt.mpr hsc
    rw [e1, trainIter_succ, epochUpd_of_not_lt _ _ _ hni]
    simp only [ihd, e2]

lemma trainLoop_never_improving {P : Type} (step : P → P) (scoreOf : P → ℚ) (tol : Nat) :
    ∀ (n : Nat) (s : TrainState P), s.best_set = false → s.best_score = 0 →
    (∀ j, j ≤ n → 1 ≤ j → scoreOf (step^[j] s.param) ≤ 0) →
    trainLoop step scoreOf tol n s = Except.error TrainError.loadNone := by
  intro n
  induction n with
  | zero =>
    intro s hset _ _
    simp only [trainLoop, load_state_dict, hset]
    rfl
  | succ n ih =>
    intro s hset hscore hsc
    have h1 : scoreOf (step s.param) ≤ 0 := by
      have := hsc 1 (by omega) (by omega)
      rwa [Function.iterate_one] at this
    have hni : ¬ s.best_score < scoreOf (step s.param) := by
      rw [hscore]
      exact not_lt.mpr h1
    have hupd := epochUpd_of_not_lt step scoreOf s hni
    by_cases hc : s.count + 1 = tol
    · rw [trainLoop_succ_stop step scoreOf tol n s hni hc, hupd]
      simp only [load_state_dict, hset]
      rfl
    · rw [trainLoop_succ_of_not_lt_ne step scoreOf tol n s hni hc]
      apply ih
      · rw [hupd]
        exact hset
      · rw [hupd]
        exact hscore
      · intro j hj h1j
        rw [hupd]
        show scoreOf (step^[j] (step s.param)) ≤ 0
        rw [← Function.iterate_succ_apply step j s.param]
        exact hsc (j + 1) (by omega) (by omega)

/-- C10: for every run with at least one epoch in which no epoch scores
strictly above 0, the guard best_score < score (with best_score starting at 0)
never fires, so best_model stays None and the restore — at the early stop in
line 125 or after the cap in line 129 — passes None to load_state_dict and
train fails; epochs at least 1 therefore does not suffice for train to return
normally. -/
theorem train_never_improving_fails {P : Type} (step : P → P) (scoreOf : P → ℚ)
    (epochs tol : Nat) (p0 : P) (heps : 1 ≤ epochs)
    (hsc : ∀ j, j ≤ epochs → 1 ≤ j → scoreOf (step^[j] p0) ≤ 0) :
    train step scoreOf epochs tol p0 = Except.error TrainError.loadNone := by
  unfold train
  exact trainLoop_never_improving step scoreOf tol epochs (trainInit p0) rfl rfl hsc

/-- Witness for C10 at a concrete input: one epoch, tolerance one, every score
equal to zero. -/
theorem train_never_improving_fails_witness :
    train id (fun _ => (0 : ℚ)) 1 1 (0 : Nat) = Except.error TrainError.loadNone :=
  train_never_improving_fails id (fun _ => (0 : ℚ)) 1 1 0 (by omega)
    (fun _ _ _ => le_refl 0)

/-- C2 as stated fails on the code at a concrete input: epochs = 5, tol = 1,
parameters moving 0, 1, 2, ... and validation scores 10, 10, 20, 15, 15.
Epoch 3 achieves the single best score of the run (20) and no later epoch
strictly exceeds it, so the claim predicts termination at epoch
min (3 + 1) 5 = 4; but the tie at epoch 2 already drives the counter to
tol = 1 and the loop stops at epoch 2, before the best epoch is ever run. -/
theorem train_early_stops_before_claimed_epoch :
    ((List.range 6).all fun j => decide (scoreB (Nat.succ^[j] 0) ≤ scoreB (Nat.succ^[3] 0))) = true ∧
    (train Nat.succ scoreB 5 1 0).map TrainState.epoch = Except.ok 2 ∧
    (2 : Nat) ≠ min (3 + 1) 5 := by
  refine ⟨rfl, rfl, by decide⟩

/-- C2 amended: for every epochs and tol at least 1 and every run in which
epoch k (1 <= k <= epochs) strictly improves on the best score seen before it,
no epoch after k up to min (k + tol) epochs strictly exceeds the score of
epoch k, and — the addition the counterexample forces — the non-improvement
counter has not reached tol at any epoch up to k (so the loop has not already
stopped before epoch k), the controller terminates at epoch
min (k + tol) epochs with the score of epoch k as its best score: the counter
is reset to 0 exactly when a score strictly exceeds the best seen so far (a
tie increments it) and the loop exits as soon as the counter equals tol. -/
theorem train_early_stopping_terminates_at_min {P : Type} (step : P → P)
    (scoreOf : P → ℚ) (epochs tol k : Nat) (p0 : P)
    (htol : 1 ≤ tol) (hk1 : 1 ≤ k) (hk2 : k ≤ epochs)
    (himp : (trainIter step scoreOf p0 (k - 1)).best_score < scoreOf (step^[k] p0))
    (hnostop : ∀ j, j ≤ k → (trainIter step scoreOf p0 j).count ≠ tol)
    (hafter : ∀ j, j ≤ min (k + tol) epochs → k < j →
      scoreOf (step^[j] p0) ≤ scoreOf (step^[k] p0)) :
    ∃ s, train step scoreOf epochs tol p0 = Except.ok s ∧
      s.epoch = min (k + tol) epochs ∧
      s.best_score = scoreOf (step^[k] p0) ∧ s.best_set = true := by
  have plateau := trainIter_plateau step scoreOf p0 k (min (k + tol) epochs) hk1 himp hafter
  by_cases hcase : k + tol ≤ epochs
  · have hmin : min (k + tol) epochs = k + tol := by omega
    have hcounts : ∀ i, i ≤ k + tol - 1 → (trainIter step scoreOf p0 i).count ≠ tol := by
      intro i hi
      by_cases hik : i ≤ k
      · exact hnostop i hik
      · have hd : i = k + (i - k) := by omega
        rw [hd, plateau (i - k) (by omega)]
        show i - k ≠ tol
        omega
    have hunroll := trainLoop_unroll_init step scoreOf tol p0 (k + tol - 1) epochs
      (by omega) hcounts
    have hfuel : epochs - (k + tol - 1) = (epochs - (k + tol)) + 1 := by omega
    unfold train at hunroll ⊢
    rw [hunroll, hfuel]
    have estate : k + tol - 1 = k + (tol - 1) := by omega
    rw [estate]
    have hplat := plateau (tol - 1) (by omega)
    have e2 : step (step^[k + (tol - 1)] p0) = step^[k + tol] p0 := by
      rw [← Function.iterate_succ_apply' step (k + (tol - 1)) p0]
      congr 1
      omega
    have hsc : scoreOf (step^[k + tol] p0) ≤ scoreOf (step^[k] p0) :=
      hafter (k + tol) (by omega) (by omega)
    have hni : ¬ (trainIter step scoreOf p0 (k + (tol - 1))).best_score <
        scoreOf (step (trainIter step scoreOf p0 (k + (tol - 1))).param) := by
      rw [hplat]
      show ¬ scoreOf (step^[k] p0) < scoreOf (step (step^[k + (tol - 1)] p0))
      rw [e2]
      exact not_lt.mpr hsc
    have hcnt : (trainIter step scoreOf p0 (k + (tol - 1))).count + 1 = tol := by
      rw [hplat]
      show tol - 1 + 1 = tol
      omega
    rw [trainLoop_succ_stop step scoreOf tol (epochs - (k + tol)) _ hni hcnt]
    rw [epochUpd_of_not_lt _ _ _ hni, hplat]
    refine ⟨_, rfl, ?_, rfl, rfl⟩
    show k + (tol - 1) + 1 = min (k + tol) epochs
    omega
  · have hmin : min (k + tol) epochs = epochs := by omega
    have hcounts : ∀ i, i ≤ epochs → (trainIter step scoreOf p0 i).count ≠ tol := by
      intro i hi
      by_cases hik : i ≤ k
      · exact hnostop i hik
      · have hd : i = k + (i - k) := by omega
        rw [hd, plateau (i - k) (by omega)]
        show i - k ≠ tol
        omega
    have hunroll := trainLoop_unroll_init step scoreOf tol p0 epochs epochs
      (le_refl epochs) hcounts
    unfold train at hunroll ⊢
    rw [hunroll, Nat.sub_self]
    have e : k + (epochs - k) = epochs := by omega
    have hplat := plateau (epochs - k) (by omega)
    rw [e] at hplat
    rw [hplat]
    simp only [trainLoop]
    refine ⟨_, rfl, ?_, rfl, rfl⟩
    show epochs = min (k + tol) epochs
    omega

/-- Witness for the amended C2 at the scenario of the specification: epochs =
10, tol = 2, validation scores 50, 40, 30, best epoch k = 1; the controller
stops at epoch min (1 + 2) 10 = 3. -/
theorem train_early_stopping_terminates_at_min_witness :
    ∃ s, train Nat.succ scoreC 10 2 0 = Except.ok s ∧
      s.epoch = min (1 + 2) 10 ∧
      s.best_score = scoreC (Nat.succ^[1] 0) ∧ s.best_set = true := by
  apply train_early_stopping_terminates_at_min Nat.succ scoreC 10 2 1 0
  · omega
  · omega
  · omega
  · decide
  · intro j hj
    interval_cases j <;> decide
  · intro j hj1 hj2
    have hj3 : j ≤ 3 := by
      omega
    interval_cases j <;> decide
